import Mathlib

/-!
Shallow embedding of `keras_cv/datasets/pascal_voc/load.py`.

The module under verification is a thin adapter: a per-record transform
(`curry_map_function` / `apply`) that optionally resizes the image, converts
bounding boxes from the normalized `rel_yxyx` corner format to a caller-chosen
format, casts labels to floating point and concatenates them as a fifth
column; and a pipeline assembler (`load`) that composes
source → map → optional shuffle → optional ragged batch.

Tensor values are modelled over `ℚ` (the module performs no arithmetic whose
rounding could matter to the stated properties: labels are integers cast to
float, and all shape/ordering facts are exact).  Collaborators that live
outside this repository slice (`keras.layers.Resizing`, `tf.cast`,
`tf.concat`, `tfds.load`, `tf.data` pipeline stages,
`keras_cv.bounding_box.convert_format`) are modelled from the specification,
each marked `Modelled from the spec:` in its doc comment.  Runtime
randomness (file shuffling, buffer shuffling) is modelled by explicit seed
parameters selecting a permutation.
-/

set_option autoImplicit false

/-- An image tensor of shape H×W×3: explicit height and width, and the pixel
values flattened row-major (the claims depend on dimensions and on content
identity, never on interpolated values). -/
structure Image where
  height : Nat
  width : Nat
  data : List ℚ
deriving DecidableEq, Repr

/-- One bounding box: four coordinates, in whichever format is in play.
Field `ci` is column i of the N×4 tensor row. -/
structure Box where
  c0 : ℚ
  c1 : ℚ
  c2 : ℚ
  c3 : ℚ
deriving DecidableEq, Repr

/-- The bounding-box coordinate conventions supported by
`keras_cv.bounding_box` that this loader can target. -/
inductive BBoxFormat
  | xyxy
  | rel_xyxy
  | yxyx
  | rel_yxyx
  | xywh
  | rel_xywh
  | center_xywh
deriving DecidableEq, Repr

/-- A raw record emitted by the dataset source: `image`, `objects.bbox`
(N×4, normalized corners `rel_yxyx`), `objects.label` (N integer class ids). -/
structure RawRecord where
  image : Image
  bbox : List Box
  label : List Int
deriving DecidableEq, Repr

/-- An output record of the per-record transform: keys `images` and
`bounding_boxes` (N rows of 5 rationals: 4 coordinates then the label). -/
structure OutputRecord where
  images : Image
  bounding_boxes : List (List ℚ)
deriving DecidableEq, Repr

/-- Pixel lookup in the flattened row-major H×W×3 layout (0 outside range). -/
def Image.pixel (img : Image) (r c ch : Nat) : ℚ :=
  img.data.getD ((r * img.width + c) * 3 + ch) 0

/-- Modelled from the spec: `keras.layers.Resizing(height, width,
crop_to_aspect_ratio=False)` — missing from this slice — maps any input image
to an image of exactly the configured height and width, without preserving
aspect ratio and without cropping.  The interpolation arithmetic is external
floating-point code; it is modelled as nearest-neighbour sampling, which the
claims never inspect. -/
def resizing (h w : Nat) (img : Image) : Image :=
  { height := h
    width := w
    data := (List.range (h * w * 3)).map (fun i =>
      let ch := i % 3
      let c := (i / 3) % w
      let r := (i / 3) / w
      img.pixel (r * img.height / h) (c * img.width / w) ch) }

/-- Modelled from the spec: the half of `keras_cv.bounding_box.convert_format`
(repository code missing from this slice) that reads a box written in
`source` format into normalized `rel_yxyx` corners, against a reference image
of height `h` and width `w`. -/
def to_rel_yxyx (source : BBoxFormat) (h w : ℚ) (b : Box) : Box :=
  match source with
  | .rel_yxyx => b
  | .yxyx => ⟨b.c0 / h, b.c1 / w, b.c2 / h, b.c3 / w⟩
  | .rel_xyxy => ⟨b.c1, b.c0, b.c3, b.c2⟩
  | .xyxy => ⟨b.c1 / h, b.c0 / w, b.c3 / h, b.c2 / w⟩
  | .rel_xywh => ⟨b.c1, b.c0, b.c1 + b.c3, b.c0 + b.c2⟩
  | .xywh => ⟨b.c1 / h, b.c0 / w, (b.c1 + b.c3) / h, (b.c0 + b.c2) / w⟩
  | .center_xywh =>
      ⟨(b.c1 - b.c3 / 2) / h, (b.c0 - b.c2 / 2) / w,
       (b.c1 + b.c3 / 2) / h, (b.c0 + b.c2 / 2) / w⟩

/-- Modelled from the spec: the half of `keras_cv.bounding_box.convert_format`
that writes normalized `rel_yxyx` corners out in `target` format, against a
reference image of height `h` and width `w`. -/
def from_rel_yxyx (target : BBoxFormat) (h w : ℚ) (b : Box) : Box :=
  match target with
  | .rel_yxyx => b
  | .yxyx => ⟨b.c0 * h, b.c1 * w, b.c2 * h, b.c3 * w⟩
  | .rel_xyxy => ⟨b.c1, b.c0, b.c3, b.c2⟩
  | .xyxy => ⟨b.c1 * w, b.c0 * h, b.c3 * w, b.c2 * h⟩
  | .rel_xywh => ⟨b.c1, b.c0, b.c3 - b.c1, b.c2 - b.c0⟩
  | .xywh => ⟨b.c1 * w, b.c0 * h, (b.c3 - b.c1) * w, (b.c2 - b.c0) * h⟩
  | .center_xywh =>
      ⟨(b.c1 + b.c3) / 2 * w, (b.c0 + b.c2) / 2 * h,
       (b.c3 - b.c1) * w, (b.c2 - b.c0) * h⟩

/-- Modelled from the spec: `keras_cv.bounding_box.convert_format(boxes,
images=…, source=…, target=…)` — repository code missing from this slice —
converts every box row from `source` format to `target` format, using the
supplied image as the reference frame for conversions that need absolute
pixel dimensions. -/
def convert_format (boxes : List Box) (images : Image)
    (source target : BBoxFormat) : List Box :=
  boxes.map (fun b =>
    from_rel_yxyx target (images.height : ℚ) (images.width : ℚ)
      (to_rel_yxyx source (images.height : ℚ) (images.width : ℚ) b))

/-- Modelled from the spec: `tf.cast(labels, tf.float32)` on a rank-1 integer
tensor — integer class ids become floating-point values. -/
def cast_labels (ls : List Int) : List ℚ :=
  ls.map Int.cast

/-- One output row: the 4 box coordinates followed by the label value, i.e.
`tf.concat([boxes, labels], axis=-1)` restricted to one row after
`tf.expand_dims(labels, axis=-1)`. -/
def concatRow (b : Box) (l : ℚ) : List ℚ :=
  [b.c0, b.c1, b.c2, b.c3, l]

/-- Modelled from the spec: `tf.concat([boxes, labels], axis=-1)` of an N×4
tensor with an N×1 tensor — defined exactly when the row counts agree,
an error (`none`) otherwise. -/
def concat_boxes_labels (boxes : List Box) (labels : List ℚ) :
    Option (List (List ℚ)) :=
  if boxes.length = labels.length then
    some (List.zipWith concatRow boxes labels)
  else none

/-- The closure state of `curry_map_function`: the target box format and the
optional target image size (height, width). -/
structure Config where
  bounding_box_format : BBoxFormat
  img_size : Option (Nat × Nat)
deriving DecidableEq, Repr

/-- The image step of `apply`: resize when `img_size` is configured, pass the
image through unchanged otherwise. -/
def resize_image (cfg : Config) (img : Image) : Image :=
  match cfg.img_size with
  | some hw => resizing hw.1 hw.2 img
  | none => img

/-- The per-record transform `apply` returned by `curry_map_function`:
optionally resize `inputs["image"]`, convert `inputs["objects"]["bbox"]` from
`rel_yxyx` to the target format against the (possibly resized) image, cast
labels to float, expand to a column and concatenate as the 5th column.
Fails (`none`) when the box and label row counts disagree, as `tf.concat`
would. -/
def apply (cfg : Config) (inputs : RawRecord) : Option OutputRecord :=
  let image := resize_image cfg inputs.image
  let bbox := convert_format inputs.bbox image BBoxFormat.rel_yxyx
    cfg.bounding_box_format
  let labels := cast_labels inputs.label
  match concat_boxes_labels bbox labels with
  | some rows => some { images := image, bounding_boxes := rows }
  | none => none

/-- Dataset metadata (`ds_info`): returned unchanged from the source by
`load`; only its identity matters to the claims. -/
structure DatasetInformation where
  name : String
  numClasses : Nat
deriving DecidableEq, Repr

/-- The dataset source environment behind `tfds.load("voc/2007", …)`: the
records of each split in their canonical on-disk order, plus the metadata
object. -/
structure TFDS where
  records : String → List RawRecord
  info : DatasetInformation

/-- Modelled from the spec: runtime randomness of a shuffling stage,
abstracted as a seed-indexed permutation (a rotation) of the sequence. -/
def permuteBySeed {α : Type} (seed : Nat) (xs : List α) : List α :=
  xs.rotate seed

/-- Modelled from the spec: `tfds.load("voc/2007", split=…,
shuffle_files=…, with_info=True)` — returns the split's records (in a
randomness-dependent order when `shuffle_files` is true, in canonical order
otherwise) together with the dataset metadata. -/
def tfds_load (env : TFDS) (split : String) (shuffle_files : Bool)
    (seed : Nat) : List RawRecord × DatasetInformation :=
  (if shuffle_files then permuteBySeed seed (env.records split)
   else env.records split,
   env.info)

/-- Modelled from the spec: `tf.data.Dataset.map` with a fallible per-record
function — the pipeline fails if any record fails. -/
def dataset_map {α β : Type} (f : α → Option β) : List α → Option (List β)
  | [] => some []
  | x :: xs =>
    match f x, dataset_map f xs with
    | some y, some ys => some (y :: ys)
    | _, _ => none

/-- Modelled from the spec: `dataset.shuffle(buffer, reshuffle_each_iteration=True)`
draws records from a bounded buffer using runtime randomness; abstracted as
a seed-indexed permutation (the buffer bounds the randomness, which the
claims never inspect). -/
def shuffleEval {α : Type} (seed : Nat) (bufferSize : Nat) (xs : List α) :
    List α :=
  let _ := bufferSize
  permuteBySeed seed xs

/-- Worker for `chunkList`: the first argument of the recursion is fuel (an
upper bound on the number of chunks), so the recursion is structural and
evaluation reduces in the kernel.  For `n ≥ 1`, fuel `xs.length` is always
sufficient. -/
def chunkGo {α : Type} (n : Nat) : Nat → List α → List (List α)
  | _, [] => []
  | 0, _ :: _ => []
  | fuel + 1, y :: ys => (y :: ys).take n :: chunkGo n fuel ((y :: ys).drop n)

/-- Consecutive chunks of size `n` (the last one may be shorter); the grouping
performed by a batching stage.  Returns `[]` when `n = 0`. -/
def chunkList {α : Type} (n : Nat) (xs : List α) : List (List α) :=
  if n = 0 then [] else chunkGo n xs.length xs

/-- Modelled from the spec:
`tf.data.experimental.dense_to_ragged_batch(batch_size)` groups `batch_size`
consecutive records into a ragged batch — row counts may differ across the
records of one batch.  A non-positive batch size is a runtime error
(`none`). -/
def dense_to_ragged_batch (n : Nat) (rs : List OutputRecord) :
    Option (List (List OutputRecord)) :=
  if n = 0 then none else some (chunkList n rs)

/-- Python truthiness of the `Optional[int]` argument `shuffle_buffer`:
`None` and `0` are falsy, any other value truthy. -/
def optTruthy : Option Nat → Bool
  | none => false
  | some n => decide (n ≠ 0)

/-- One assembled stage of the pipeline built by `load`. -/
inductive Stage
  | mapStage (format : BBoxFormat) (imgSize : Option (Nat × Nat))
  | shuffleStage (bufferSize : Nat) (reshuffleEachIteration : Bool)
  | raggedBatchStage (batchSize : Nat)
deriving DecidableEq, Repr

/-- The stages `load` assembles after the source, in order, mirroring the
source's two conditionals (`if shuffle_buffer:` tests truthiness;
`if batch_size is not None:` tests only for `None`). -/
def loadStages (format : BBoxFormat) (batch_size shuffle_buffer : Option Nat)
    (img_size : Option (Nat × Nat)) : List Stage :=
  [Stage.mapStage format img_size]
    ++ (if optTruthy shuffle_buffer then
          [Stage.shuffleStage (shuffle_buffer.getD 0) true]
        else [])
    ++ (match batch_size with
        | some n => [Stage.raggedBatchStage n]
        | none => [])

/-- The value flowing through the pipeline: raw records from the source,
transformed records after the map, ragged batches after batching, or a
propagated runtime error. -/
inductive PipeValue
  | raw (rs : List RawRecord)
  | recs (rs : List OutputRecord)
  | batches (bs : List (List OutputRecord))
  | failure
deriving DecidableEq, Repr

/-- Evaluation of one pipeline stage on a flowing value. -/
def evalStage (seed : Nat) (v : PipeValue) (st : Stage) : PipeValue :=
  match st, v with
  | Stage.mapStage fmt sz, PipeValue.raw rs =>
    (match dataset_map
        (apply { bounding_box_format := fmt, img_size := sz }) rs with
     | some out => PipeValue.recs out
     | none => PipeValue.failure)
  | Stage.shuffleStage b _, PipeValue.recs rs =>
    PipeValue.recs (shuffleEval seed b rs)
  | Stage.raggedBatchStage n, PipeValue.recs rs =>
    (match dense_to_ragged_batch n rs with
     | some bs => PipeValue.batches bs
     | none => PipeValue.failure)
  | _, _ => PipeValue.failure

/-- The pipeline assembler `load`: request the split from `tfds.load` (with
file-level shuffling per `shuffle_files`), map the per-record transform over
it, shuffle when `shuffle_buffer` is truthy (reshuffling each iteration),
apply `dense_to_ragged_batch` when `batch_size` is not `None`, and return
the pipeline together with the metadata.  `fileSeed` and `shuffleSeed` model
the runtime randomness consumed by the two shuffles. -/
def load (env : TFDS) (split : String) (bounding_box_format : BBoxFormat)
    (batch_size shuffle_buffer : Option Nat) (shuffle_files : Bool)
    (img_size : Option (Nat × Nat)) (fileSeed shuffleSeed : Nat) :
    PipeValue × DatasetInformation :=
  let src := tfds_load env split shuffle_files fileSeed
  let mapped : PipeValue :=
    match dataset_map
        (apply { bounding_box_format := bounding_box_format,
                 img_size := img_size }) src.1 with
    | some rs => PipeValue.recs rs
    | none => PipeValue.failure
  let shuffled : PipeValue :=
    if optTruthy shuffle_buffer then
      match mapped with
      | PipeValue.recs rs =>
        PipeValue.recs (shuffleEval shuffleSeed (shuffle_buffer.getD 0) rs)
      | v => v
    else mapped
  let batched : PipeValue :=
    match batch_size with
    | some n =>
      match shuffled with
      | PipeValue.recs rs =>
        (match dense_to_ragged_batch n rs with
         | some bs => PipeValue.batches bs
         | none => PipeValue.failure)
      | v => v
    | none => shuffled
  (batched, src.2)

/-- Observation of a pipeline value as a list of ragged batches (`none` when
the pipeline is unbatched or failed). -/
def pipeBatches : PipeValue → Option (List (List OutputRecord))
  | PipeValue.batches bs => some bs
  | _ => none

/-- Observation of a pipeline value as a list of unbatched records (`none`
when the pipeline is batched or failed). -/
def pipeRecords : PipeValue → Option (List OutputRecord)
  | PipeValue.recs rs => some rs
  | _ => none

/-- Concrete 2×2 image used by the witnesses. -/
def imgSmall : Image :=
  { height := 2, width := 2
    data := [0, 1, 2, 3, 4, 5, 6, 7, 8, 9, 10, 11] }

/-- A concrete raw record with one object. -/
def recOne : RawRecord :=
  { image := imgSmall
    bbox := [{ c0 := 0, c1 := 0, c2 := 1/2, c3 := 1/2 }]
    label := [7] }

/-- A concrete raw record with zero objects. -/
def recZero : RawRecord :=
  { image := imgSmall, bbox := [], label := [] }

/-- A concrete raw record with five objects. -/
def recFive : RawRecord :=
  { image := imgSmall
    bbox :=
      [{ c0 := 0, c1 := 0, c2 := 1, c3 := 1 },
       { c0 := 0, c1 := 1/4, c2 := 1/2, c3 := 3/4 },
       { c0 := 1/4, c1 := 0, c2 := 3/4, c3 := 1/2 },
       { c0 := 1/8, c1 := 1/8, c2 := 7/8, c3 := 7/8 },
       { c0 := 0, c1 := 0, c2 := 1/4, c3 := 1/4 }]
    label := [1, 2, 3, 4, 5] }

/-- A concrete configuration with a target size. -/
def cfgResize : Config :=
  { bounding_box_format := BBoxFormat.xywh, img_size := some (4, 6) }

/-- A concrete dataset source whose "train" split holds records with 0, 1
and 5 objects, in that order. -/
def envThree : TFDS :=
  { records := fun s => if s = "train" then [recZero, recOne, recFive] else []
    info := { name := "voc/2007", numClasses := 20 } }

/-- `convert_format` maps each box row to one converted box row. -/
theorem convert_format_length (boxes : List Box) (images : Image)
    (source target : BBoxFormat) :
    (convert_format boxes images source target).length = boxes.length := by
  simp [convert_format]

/-- `tf.cast` preserves the number of labels. -/
theorem cast_labels_length (ls : List Int) :
    (cast_labels ls).length = ls.length := by
  simp only [cast_labels, List.length_map]

/-- When the box and label row counts agree, `apply` succeeds and its output
is the resized image together with the rows obtained by zipping the
converted boxes with the cast labels. -/
theorem apply_eq_some_of_length_eq (cfg : Config) (inputs : RawRecord)
    (h : inputs.bbox.length = inputs.label.length) :
    apply cfg inputs = some
      { images := resize_image cfg inputs.image
        bounding_boxes := List.zipWith concatRow
          (convert_format inputs.bbox (resize_image cfg inputs.image)
            BBoxFormat.rel_yxyx cfg.bounding_box_format)
          (cast_labels inputs.label) } := by
  simp [apply, concat_boxes_labels, convert_format_length, cast_labels_length, h]

/-- Every row produced by zipping boxes with labels has 5 entries. -/
theorem zipWith_concatRow_row_length (boxes : List Box) (ls : List ℚ) :
    ∀ row ∈ List.zipWith concatRow boxes ls, row.length = 5 := by
  induction boxes generalizing ls with
  | nil => simp
  | cons b bs ih =>
    cases ls with
    | nil => simp
    | cons l ls =>
      intro row hrow
      rcases List.mem_cons.mp hrow with hr | hr
      · subst hr; rfl
      · exact ih ls row hr

/-- Indexing a `zipWith` under bounds reduces to indexing the two lists. -/
theorem list_getD_zipWith {α β γ : Type} (f : α → β → γ) (as : List α)
    (bs : List β) (i : Nat) (ha : i < as.length) (hb : i < bs.length)
    (da : α) (db : β) (dg : γ) :
    (List.zipWith f as bs).getD i dg = f (as.getD i da) (bs.getD i db) := by
  induction as generalizing bs i with
  | nil => exact absurd ha (by simp)
  | cons a as ih =>
    cases bs with
    | nil => exact absurd hb (by simp)
    | cons b bs =>
      cases i with
      | zero => rfl
      | succ j =>
        simp only [List.zipWith_cons_cons, List.getD_cons_succ]
        exact ih bs j (by simpa using ha) (by simpa using hb)

/-- Indexing a `map` under bounds reduces to indexing the list. -/
theorem list_getD_map {α β : Type} (f : α → β) (xs : List α) (i : Nat)
    (h : i < xs.length) (da : α) (db : β) :
    (xs.map f).getD i db = f (xs.getD i da) := by
  induction xs generalizing i with
  | nil => exact absurd h (by simp)
  | cons x xs ih =>
    cases i with
    | zero => rfl
    | succ j =>
      simp only [List.map_cons, List.getD_cons_succ]
      exact ih j (by simpa using h)

/-- Claim C1: for every input record with as many labels as boxes, `apply`
succeeds and preserves the object count — the output `bounding_boxes` has
exactly one row per input box (including zero rows), each of 5 columns. -/
theorem apply_preserves_row_count (cfg : Config) (inputs : RawRecord)
    (h : inputs.bbox.length = inputs.label.length) :
    ∃ out : OutputRecord, apply cfg inputs = some out ∧
      out.bounding_boxes.length = inputs.bbox.length ∧
      ∀ row ∈ out.bounding_boxes, row.length = 5 := by
  refine ⟨_, apply_eq_some_of_length_eq cfg inputs h, ?_, ?_⟩
  · simp [List.length_zipWith, convert_format_length, cast_labels_length, h]
  · exact zipWith_concatRow_row_length _ _

/-- Witness for claim C1 at a concrete record and configuration. -/
theorem apply_preserves_row_count_witness :
    recOne.bbox.length = recOne.label.length ∧
    ∃ out : OutputRecord, apply cfgResize recOne = some out ∧
      out.bounding_boxes.length = recOne.bbox.length ∧
      ∀ row ∈ out.bounding_boxes, row.length = 5 :=
  ⟨rfl, apply_preserves_row_count cfgResize recOne rfl⟩

/-- Claim C2: with a configured target size (h, w), `apply` produces an image
of exactly height h and width w, whatever the input image dimensions. -/
theorem apply_resizes_to_configured_size (fmt : BBoxFormat) (h w : Nat)
    (inputs : RawRecord)
    (hlen : inputs.bbox.length = inputs.label.length) :
    ∃ out : OutputRecord,
      apply { bounding_box_format := fmt, img_size := some (h, w) } inputs
        = some out ∧
      out.images.height = h ∧ out.images.width = w := by
  refine ⟨_, apply_eq_some_of_length_eq _ inputs hlen, ?_, ?_⟩ <;>
    simp [resize_image, resizing]

/-- Witness for claim C2 on a 2×2 input resized to 4×6. -/
theorem apply_resizes_to_configured_size_witness :
    recOne.bbox.length = recOne.label.length ∧
    ∃ out : OutputRecord,
      apply { bounding_box_format := BBoxFormat.xyxy,
              img_size := some (4, 6) } recOne = some out ∧
      out.images.height = 4 ∧ out.images.width = 6 :=
  ⟨rfl, apply_resizes_to_configured_size BBoxFormat.xyxy 4 6 recOne rfl⟩

/-- Claim C3: with no configured size, `apply` passes the image through
unchanged — same dimensions and same contents. -/
theorem apply_no_resize_preserves_image (fmt : BBoxFormat)
    (inputs : RawRecord)
    (hlen : inputs.bbox.length = inputs.label.length) :
    ∃ out : OutputRecord,
      apply { bounding_box_format := fmt, img_size := none } inputs
        = some out ∧
      out.images = inputs.image :=
  ⟨_, apply_eq_some_of_length_eq _ inputs hlen, rfl⟩

/-- Witness for claim C3 at a concrete record. -/
theorem apply_no_resize_preserves_image_witness :
    recOne.bbox.length = recOne.label.length ∧
    ∃ out : OutputRecord,
      apply { bounding_box_format := BBoxFormat.xywh, img_size := none }
        recOne = some out ∧
      out.images = recOne.image :=
  ⟨rfl, apply_no_resize_preserves_image BBoxFormat.xywh recOne rfl⟩

/-- Claim C4: row i of the output `bounding_boxes` is the converted box i
followed by the input integer label i cast to floating point as the 5th
column. -/
theorem apply_label_fifth_column (cfg : Config) (inputs : RawRecord)
    (hlen : inputs.bbox.length = inputs.label.length)
    (i : Nat) (hi : i < inputs.bbox.length) :
    ∃ out : OutputRecord, apply cfg inputs = some out ∧
      out.bounding_boxes.getD i [] =
        concatRow
          ((convert_format inputs.bbox (resize_image cfg inputs.image)
              BBoxFormat.rel_yxyx cfg.bounding_box_format).getD i
            { c0 := 0, c1 := 0, c2 := 0, c3 := 0 })
          (Int.cast (inputs.label.getD i 0)) := by
  refine ⟨_, apply_eq_some_of_length_eq cfg inputs hlen, ?_⟩
  have hconv : i < (convert_format inputs.bbox (resize_image cfg inputs.image)
      BBoxFormat.rel_yxyx cfg.bounding_box_format).length := by
    rw [convert_format_length]; exact hi
  have hcast : i < (cast_labels inputs.label).length := by
    rw [cast_labels_length]; omega
  have hc : (cast_labels inputs.label).getD i 0
      = (Int.cast (inputs.label.getD i 0) : ℚ) := by
    simp only [cast_labels]
    exact list_getD_map Int.cast inputs.label i (by omega) 0 0
  rw [list_getD_zipWith concatRow _ _ i hconv hcast
    { c0 := 0, c1 := 0, c2 := 0, c3 := 0 } 0 [], hc]

/-- Witness for claim C4 at object index 0 of a concrete record. -/
theorem apply_label_fifth_column_witness :
    (recOne.bbox.length = recOne.label.length ∧ 0 < recOne.bbox.length) ∧
    ∃ out : OutputRecord, apply cfgResize recOne = some out ∧
      out.bounding_boxes.getD 0 [] =
        concatRow
          ((convert_format recOne.bbox (resize_image cfgResize recOne.image)
              BBoxFormat.rel_yxyx cfgResize.bounding_box_format).getD 0
            { c0 := 0, c1 := 0, c2 := 0, c3 := 0 })
          (Int.cast (recOne.label.getD 0 0)) :=
  ⟨⟨rfl, by decide⟩, apply_label_fifth_column cfgResize recOne rfl 0 (by decide)⟩

/-- Claim C5: with a configured size, the resize happens first and the box
conversion (from `rel_yxyx` to the caller's format) is computed against the
post-resize image as reference frame. -/
theorem apply_converts_against_resized_image (fmt : BBoxFormat) (h w : Nat)
    (inputs : RawRecord)
    (hlen : inputs.bbox.length = inputs.label.length) :
    ∃ out : OutputRecord,
      apply { bounding_box_format := fmt, img_size := some (h, w) } inputs
        = some out ∧
      out.images = resizing h w inputs.image ∧
      out.bounding_boxes = List.zipWith concatRow
        (convert_format inputs.bbox (resizing h w inputs.image)
          BBoxFormat.rel_yxyx fmt)
        (cast_labels inputs.label) :=
  ⟨_, apply_eq_some_of_length_eq _ inputs hlen, rfl, rfl⟩

/-- Witness for claim C5 on a concrete record resized to 4×6. -/
theorem apply_converts_against_resized_image_witness :
    recOne.bbox.length = recOne.label.length ∧
    ∃ out : OutputRecord,
      apply { bounding_box_format := BBoxFormat.center_xywh,
              img_size := some (4, 6) } recOne = some out ∧
      out.images = resizing 4 6 recOne.image ∧
      out.bounding_boxes = List.zipWith concatRow
        (convert_format recOne.bbox (resizing 4 6 recOne.image)
          BBoxFormat.rel_yxyx BBoxFormat.center_xywh)
        (cast_labels recOne.label) :=
  ⟨rfl,
    apply_converts_against_resized_image BBoxFormat.center_xywh 4 6 recOne rfl⟩

/-- Claim C10: on a record with zero objects (empty boxes and labels),
`apply` succeeds and its `bounding_boxes` is the empty 0×5 tensor — the
cast, expand-dims and concat steps are total on empty inputs. -/
theorem apply_total_on_empty_record (cfg : Config) (img : Image) :
    apply cfg { image := img, bbox := [], label := [] } =
      some { images := resize_image cfg img, bounding_boxes := [] } := by
  simp [apply, convert_format, cast_labels, concat_boxes_labels]

/-- A stage applied to a failed pipeline propagates the failure. -/
theorem evalStage_failure (seed : Nat) (st : Stage) :
    evalStage seed PipeValue.failure st = PipeValue.failure := by
  cases st <;> rfl

/-- Reduction of the map stage. -/
theorem evalStage_mapStage (seed : Nat) (fmt : BBoxFormat)
    (sz : Option (Nat × Nat)) (rs : List RawRecord) :
    evalStage seed (PipeValue.raw rs) (Stage.mapStage fmt sz) =
      match dataset_map
          (apply { bounding_box_format := fmt, img_size := sz }) rs with
      | some out => PipeValue.recs out
      | none => PipeValue.failure := rfl

/-- Reduction of the shuffle stage on records. -/
theorem evalStage_shuffleStage (seed b : Nat) (r : Bool)
    (rs : List OutputRecord) :
    evalStage seed (PipeValue.recs rs) (Stage.shuffleStage b r) =
      PipeValue.recs (shuffleEval seed b rs) := rfl

/-- Reduction of the ragged batch stage on records. -/
theorem evalStage_raggedBatchStage (seed n : Nat)
    (rs : List OutputRecord) :
    evalStage seed (PipeValue.recs rs) (Stage.raggedBatchStage n) =
      match dense_to_ragged_batch n rs with
      | some bs => PipeValue.batches bs
      | none => PipeValue.failure := rfl

/-- `load` evaluates exactly the stage list `loadStages` assembles, folded in
order over the source records, whatever the optional arguments are. -/
theorem load_eq_foldl_loadStages (env : TFDS) (split : String)
    (fmt : BBoxFormat) (batch_size shuffle_buffer : Option Nat)
    (shuffle_files : Bool) (img_size : Option (Nat × Nat))
    (fileSeed shuffleSeed : Nat) :
    load env split fmt batch_size shuffle_buffer shuffle_files img_size
        fileSeed shuffleSeed =
      ((loadStages fmt batch_size shuffle_buffer img_size).foldl
        (evalStage shuffleSeed)
        (PipeValue.raw (tfds_load env split shuffle_files fileSeed).1),
       env.info) := by
  refine Prod.ext ?_ rfl
  cases hm : dataset_map
      (apply { bounding_box_format := fmt, img_size := img_size })
      (tfds_load env split shuffle_files fileSeed).1 with
  | none =>
    rcases shuffle_buffer with _ | b
    · rcases batch_size with _ | n <;>
        simp [load, loadStages, optTruthy, List.foldl, hm,
          evalStage_mapStage, evalStage_failure]
    · by_cases hb : b = 0
      · subst hb
        rcases batch_size with _ | n <;>
          simp [load, loadStages, optTruthy, List.foldl, hm,
            evalStage_mapStage, evalStage_failure]
      · rcases batch_size with _ | n <;>
          simp [load, loadStages, optTruthy, hb, List.foldl, hm,
            evalStage_mapStage, evalStage_failure]
  | some rs =>
    rcases shuffle_buffer with _ | b
    · rcases batch_size with _ | n <;>
        simp [load, loadStages, optTruthy, List.foldl, hm,
          evalStage_mapStage, evalStage_shuffleStage,
          evalStage_raggedBatchStage]
    · by_cases hb : b = 0
      · subst hb
        rcases batch_size with _ | n <;>
          simp [load, loadStages, optTruthy, List.foldl, hm,
            evalStage_mapStage, evalStage_shuffleStage,
            evalStage_raggedBatchStage]
      · rcases batch_size with _ | n <;>
          simp [load, loadStages, optTruthy, hb, List.foldl, hm,
            evalStage_mapStage, evalStage_shuffleStage,
            evalStage_raggedBatchStage]

/-- Claim C6: `load` assembles source → map → shuffle → batch, in that
order; with the interface's contract that a given shuffle buffer size is
positive, the shuffle stage (with the given capacity and reshuffling each
iteration) is present exactly when a buffer size is given, the ragged batch
stage exactly when a batch size is given, and the metadata from the source
is returned alongside the pipeline. -/
theorem load_pipeline_assembly (env : TFDS) (split : String)
    (fmt : BBoxFormat) (batch_size shuffle_buffer : Option Nat)
    (shuffle_files : Bool) (img_size : Option (Nat × Nat))
    (fileSeed shuffleSeed : Nat)
    (hsb : ∀ b, shuffle_buffer = some b → 0 < b) :
    (load env split fmt batch_size shuffle_buffer shuffle_files img_size
        fileSeed shuffleSeed).2 = env.info ∧
    (load env split fmt batch_size shuffle_buffer shuffle_files img_size
        fileSeed shuffleSeed).1 =
      (loadStages fmt batch_size shuffle_buffer img_size).foldl
        (evalStage shuffleSeed)
        (PipeValue.raw (tfds_load env split shuffle_files fileSeed).1) ∧
    loadStages fmt batch_size shuffle_buffer img_size =
      Stage.mapStage fmt img_size ::
        (shuffle_buffer.elim [] (fun b => [Stage.shuffleStage b true]) ++
         batch_size.elim [] (fun n => [Stage.raggedBatchStage n])) := by
  refine ⟨?_, ?_, ?_⟩
  · rw [load_eq_foldl_loadStages]
  · rw [load_eq_foldl_loadStages]
  · rcases shuffle_buffer with _ | b
    · rcases batch_size with _ | n <;> rfl
    · have hb : b ≠ 0 := Nat.pos_iff_ne_zero.mp (hsb b rfl)
      rcases batch_size with _ | n <;>
        simp [loadStages, optTruthy, hb]

/-- Witness for claim C6 on a concrete source with shuffling and batching
both enabled. -/
theorem load_pipeline_assembly_witness :
    (load envThree "train" BBoxFormat.xywh (some 2) (some 5) true none 3 1).2
        = envThree.info ∧
    (load envThree "train" BBoxFormat.xywh (some 2) (some 5) true none 3 1).1
        = (loadStages BBoxFormat.xywh (some 2) (some 5) none).foldl
            (evalStage 1)
            (PipeValue.raw (tfds_load envThree "train" true 3).1) ∧
    loadStages BBoxFormat.xywh (some 2) (some 5) none =
      Stage.mapStage BBoxFormat.xywh none ::
        ((some 5 : Option Nat).elim []
            (fun b => [Stage.shuffleStage b true]) ++
         (some 2 : Option Nat).elim []
            (fun n => [Stage.raggedBatchStage n])) :=
  load_pipeline_assembly envThree "train" BBoxFormat.xywh (some 2) (some 5)
    true none 3 1 (fun b hb => by cases hb; decide)

/-- Claim C8: with `shuffle_buffer=None` and `shuffle_files=False` the
pipeline is a pure function of the source — it does not depend on the
runtime randomness, so two full iterations yield records in identical
order. -/
theorem load_deterministic_without_shuffle (env : TFDS) (split : String)
    (fmt : BBoxFormat) (batch_size : Option Nat)
    (img_size : Option (Nat × Nat)) (fs1 ss1 fs2 ss2 : Nat) :
    load env split fmt batch_size none false img_size fs1 ss1 =
      load env split fmt batch_size none false img_size fs2 ss2 := by
  rcases batch_size with _ | n <;> rfl

/-- Claim C9: `load` tests truthiness of `shuffle_buffer` but only
non-`None`-ness of `batch_size`: a buffer size of 0 assembles the same
pipeline as `None` (no shuffle stage at all), while a batch size of 0 is
passed through to the batching stage. -/
theorem shuffle_zero_is_none_but_batch_zero_is_not (fmt : BBoxFormat)
    (batch_size shuffle_buffer : Option Nat)
    (img_size : Option (Nat × Nat)) (env : TFDS) (split : String)
    (shuffle_files : Bool) (fileSeed shuffleSeed : Nat) :
    loadStages fmt batch_size (some 0) img_size =
      loadStages fmt batch_size none img_size ∧
    load env split fmt batch_size (some 0) shuffle_files img_size
        fileSeed shuffleSeed =
      load env split fmt batch_size none shuffle_files img_size
        fileSeed shuffleSeed ∧
    Stage.raggedBatchStage 0 ∈ loadStages fmt (some 0) shuffle_buffer
        img_size := by
  refine ⟨?_, ?_, ?_⟩
  · simp [loadStages, optTruthy]
  · rcases batch_size with _ | n <;> rfl
  · simp [loadStages]

/-- Claim C7: on a source whose records carry 0, 1 and 5 objects, batching
with `batch_size=4` succeeds (no fixed-shape failure) and yields one ragged
batch holding all three records, whose per-record row counts 0, 1, 5 reach
the batch maximum 5; and the unbatched pipeline yields one record per source
record, in source order, when shuffling is disabled. -/
theorem ragged_batch_accommodates_varying_row_counts :
    ((pipeBatches
        (load envThree "train" BBoxFormat.xywh (some 4) none false none
          0 0).1).map
      (fun bs => bs.map (fun batch =>
        batch.map (fun r => r.bounding_boxes.length))))
      = some [[0, 1, 5]] ∧
    ((pipeBatches
        (load envThree "train" BBoxFormat.xywh (some 4) none false none
          0 0).1).map
      (fun bs => bs.map (fun batch =>
        (batch.map (fun r => r.bounding_boxes.length)).foldr max 0)))
      = some [5] ∧
    ((pipeRecords
        (load envThree "train" BBoxFormat.xywh none none false none
          0 0).1).map
      (fun rs => rs.map (fun r => r.bounding_boxes.length)))
      = some [0, 1, 5] := by
  refine ⟨?_, ?_, ?_⟩ <;> decide
